import Mathlib

set_option maxRecDepth 10000

/-!
Verification development for the skilled-agent template.

The definitions below are a shallow embedding of the agent runtime
(`index.ts`): the three tool validators and executors, the context window
hook `prepareStep`, and the conversation loop.  Strings manipulated by the
JavaScript string API are embedded as `List Char` so that the character
level behaviour of `startsWith`, `includes` and `split` is preserved
exactly.  External effects (the Bun file API, `Bun.spawn`, `readdir`) are
embedded as explicit environment records; a thrown JavaScript exception is
an `Except.error`.
-/

/-! ## Character level primitives mirroring the JavaScript string API -/

/-- Embeds `path.replace(/\\/g, '/')`: every backslash character becomes a
forward slash. -/
def normalizeSeps (p : List Char) : List Char :=
  p.map (fun c => if c = '\\' then '/' else c)

/-- Embeds `s.startsWith(pre)`: `strStartsWith pre s` is true when `pre` is a
character prefix of `s`. -/
def strStartsWith : List Char → List Char → Bool
  | [], _ => true
  | _ :: _, [] => false
  | a :: as, b :: bs => a == b && strStartsWith as bs

/-- Embeds `s.includes(needle)`: substring containment. -/
def containsSub : List Char → List Char → Bool
  | [], needle => needle.isEmpty
  | c :: rest, needle => strStartsWith needle (c :: rest) || containsSub rest needle

/-- Embeds `s.endsWith(suf)` via reversal. -/
def strEndsWith (suf s : List Char) : Bool :=
  strStartsWith suf.reverse s.reverse

/-- Embeds `s.split(sep)` for a single character separator: JavaScript split
keeps empty segments, so the result always has one more segment than there
are separators. -/
def jsSplit (sep : Char) : List Char → List (List Char)
  | [] => [[]]
  | c :: rest =>
    if c = sep then [] :: jsSplit sep rest
    else
      match jsSplit sep rest with
      | [] => [[c]]
      | seg :: segs => (c :: seg) :: segs

/-- Character wise lower casing, used for the case insensitive extension
regexp of the readFile denylist. -/
def lowerChars (s : List Char) : List Char :=
  s.map Char.toLower

def upSeg : List Char := "../".toList

def upDots : List Char := "..".toList

def envNeedle : List Char := "/.env".toList

def gitNeedle : List Char := "/.git/".toList

def nodeModulesNeedle : List Char := "node_modules/".toList

def binaryExts : List (List Char) :=
  [".png", ".jpg", ".jpeg", ".gif", ".bmp", ".webp", ".avif", ".pdf"].map
    (fun s => s.toList)

/-- Embeds the regexp test `normalized.match(/\.(png|jpg|jpeg|gif|bmp|webp|avif|pdf)$/i)`. -/
def hasBinaryExt (n : List Char) : Bool :=
  binaryExts.any (fun e => strEndsWith e (lowerChars n))

/-! ## Tool input validators (the zod refinements) -/

/-- Embeds the `runScriptTool.inputSchema` refinement: the script path,
with separators normalized, must start with the skills root string, must
not contain the substring `../`, and must split on `/` into at least three
segments. -/
def runScriptPathValid (skillsPath p : List Char) : Bool :=
  let n := normalizeSeps p
  strStartsWith skillsPath n && !(containsSub n upSeg) &&
    decide (3 ≤ (jsSplit '/' n).length)

/-- Embeds the `readFileTool.inputSchema` refinement: the path, with
separators normalized, must not contain `/.env`, `/.git/` or
`node_modules/` and must not end (case insensitively) in one of the listed
binary image extensions. -/
def readFilePathValid (p : List Char) : Bool :=
  let n := normalizeSeps p
  !(containsSub n envNeedle) && !(containsSub n gitNeedle) &&
    !(containsSub n nodeModulesNeedle) && !(hasBinaryExt n)

/-! ## runScript execution -/

/-- The state of the script file the path resolves to, together with the
behaviour the child process would have if spawned. -/
structure ScriptTarget where
  present : Bool
  executable : Bool
  runMillis : Nat
  exitCode : Int
  stdout : String
  stderr : String
deriving DecidableEq

/-- Result of `Bun.spawn` with the `timeout` option. -/
structure SpawnResult where
  exitCode : Option Int
  stdout : String
  stderr : String
  killedByTimeout : Bool
  leftRunning : Bool
deriving DecidableEq

/-- Models the runtime semantics of `Bun.spawn([scriptPath, ...args],
{ timeout, stderr: 'pipe' })`: a child whose wall clock runtime exceeds the
timeout is killed by the runtime (its `exitCode` is `null`, it is not left
running); otherwise it runs to completion with its own exit code.  In both
cases `await proc.exited` resolves and both captured streams close. -/
def spawnWithTimeout (t : ScriptTarget) (timeoutMs : Nat) : SpawnResult :=
  if timeoutMs < t.runMillis then
    ⟨none, t.stdout, t.stderr, true, false⟩
  else
    ⟨some t.exitCode, t.stdout, t.stderr, false, false⟩

/-- Environment of one `runScriptTool.execute` call: the target the path
resolves to and an optional exception raised inside the `try` block at the
spawn step (for example a spawn failure). -/
structure ExecEnv where
  target : ScriptTarget
  spawnFault : Option String
deriving DecidableEq

/-- JavaScript template interpolation of `proc.exitCode`, which prints
`null` for a child that was killed before exiting. -/
def exitCodeText : Option Int → String
  | none => "null"
  | some n => toString n

/-- Outcome of `runScriptTool.execute`: the returned string, whether a
child process was spawned, and whether that child was killed by the
timeout. -/
structure RunOutcome where
  result : String
  spawned : Bool
  killedByTimeout : Bool
deriving DecidableEq

/-- The part of `runScriptTool.execute` that inspects the finished child:
`if (proc.exitCode !== 0) return failure string; return stdout`. -/
def runSpawn (sp : SpawnResult) : Except String RunOutcome :=
  if sp.exitCode ≠ some 0 then
    .ok ⟨"Script failed with exit code " ++ exitCodeText sp.exitCode ++ ": " ++ sp.stderr,
      true, sp.killedByTimeout⟩
  else
    .ok ⟨sp.stdout, true, sp.killedByTimeout⟩

/-- The `try` block of `runScriptTool.execute`: existence check,
executability check (`test -x`), then spawn with a 10000 ms timeout.
`Except.error` is a raised JavaScript exception. -/
def runScriptTry (env : ExecEnv) : Except String RunOutcome :=
  if env.target.present = false then .ok ⟨"Script not found", false, false⟩
  else if env.target.executable = false then .ok ⟨"Script is not executable", false, false⟩
  else
    match env.spawnFault with
    | some msg => .error msg
    | none => runSpawn (spawnWithTimeout env.target 10000)

/-- `runScriptTool.execute` with its surrounding `catch`: every exception
raised in the `try` block is converted to a result string. -/
def runScriptExecute (env : ExecEnv) : RunOutcome :=
  match runScriptTry env with
  | .ok out => out
  | .error msg => ⟨"Error executing script: " ++ msg, false, false⟩

inductive RunCallResult where
  | rejected (msg : String)
  | ran (out : RunOutcome)
deriving DecidableEq

/-- One full runScript tool call: the AI SDK validates the input against
the zod schema first and invokes `execute` only on validated input; a
failed validation produces the refinement message and `execute` never
runs. -/
def runScriptCall (skillsPath : List Char) (env : ExecEnv) (scriptPath : List Char) :
    RunCallResult :=
  if runScriptPathValid skillsPath scriptPath then .ran (runScriptExecute env)
  else .rejected ("Script path must be within the skills directory")

/-! ## readFile execution -/

/-- The state of the file the path resolves to. -/
structure FileState where
  present : Bool
  size : Nat
  content : String
deriving DecidableEq

/-- Environment of one `readFileTool.execute` call: the file state and an
optional exception raised inside the `try` block. -/
structure ReadEnv where
  file : FileState
  fault : Option String
deriving DecidableEq

/-- The `try` block of `readFileTool.execute`: existence check, 1000000
byte size limit, then the text content. -/
def readFileTry (env : ReadEnv) : Except String String :=
  match env.fault with
  | some msg => .error msg
  | none =>
    if env.file.present = false then .ok ("File not found")
    else if 1000000 < env.file.size then .ok ("File too large to read")
    else .ok env.file.content

/-- `readFileTool.execute` with its surrounding `catch`. -/
def readFileExecute (env : ReadEnv) : String :=
  match readFileTry env with
  | .ok s => s
  | .error msg => "Error reading file: " ++ msg

inductive ReadCallResult where
  | rejected (msg : String)
  | executed (res : String)
deriving DecidableEq

/-- One full readFile tool call: schema validation happens before
`execute`, so a rejected path never reaches the filesystem environment. -/
def readFileCall (env : ReadEnv) (filePath : List Char) : ReadCallResult :=
  if readFilePathValid filePath then .executed (readFileExecute env)
  else .rejected ("Cannot read that file path")

/-! ## listDirectory execution -/

structure DirEntry where
  name : String
  isDir : Bool

/-- The state of the directory the path resolves to: present with entries,
missing (`readdir` raises ENOENT), or some other filesystem fault. -/
inductive DirState where
  | present (entries : List DirEntry)
  | enoent
  | fault (msg : String)

def newlineSep : String := "\n"

/-- `listDirectoryTool.execute`: a directory listing joined with newlines,
directories suffixed with `/`; the `catch` converts ENOENT to the literal
string and rethrows every other error. -/
def listDirectoryExecute : DirState → Except String String
  | .present entries =>
      .ok (String.intercalate newlineSep
        (entries.map (fun e => if e.isDir then e.name ++ "/" else e.name)))
  | .enoent => .ok ("Directory not found")
  | .fault msg => .error msg

/-! ## The context window hook -/

/-- Embeds `prepareStep`: when more than 8 messages are pending, keep the
first message and the last 8, filtering out undefined slots.  `messages[0]`
on a JavaScript array is embedded as `head?`, and the
`filter(msg !== undefined)` of the wrapped array is exactly `Option.toList`
on that head (the AI SDK message array itself is dense).  When at most 8
messages are pending the hook returns `{}` and the list passes through
unchanged. -/
def prepareStep {α : Type} (messages : List α) : List α :=
  if 8 < messages.length then
    messages.head?.toList ++ messages.drop (messages.length - 8)
  else messages

/-! ## Conversation state and the chat loop -/

inductive Role where
  | user
  | assistant
deriving DecidableEq

structure Msg where
  role : Role
  content : String
deriving DecidableEq

/-- Embeds `streamAgentResponse`: push the user message, drain the token
channel accumulating `assistantResponse` (the concatenation of the streamed
text parts, which is empty when the turn produced no text), then push the
assistant message.  `textParts` is the sequence the token channel yields
for the turn, whatever way the turn ended (model stop or exhausted 10 step
budget). -/
def streamAgentResponse (history : List Msg) (prompt : String) (textParts : List String) :
    List Msg :=
  let afterUser := history ++ [⟨Role.user, prompt⟩]
  let assistantResponse := String.join textParts
  afterUser ++ [⟨Role.assistant, assistantResponse⟩]

/-- One iteration of the interactive chat loop: a line whose trim is empty
only reprompts; any other line runs a full turn.  `respond` gives, for the
k-th completed turn, the text parts its token channel yields. -/
def chatStep (respond : Nat → List String) (st : List Msg × Nat) (line : String) :
    List Msg × Nat :=
  if line.trim = "" then st
  else (streamAgentResponse st.1 line (respond st.2), st.2 + 1)

/-- The chat loop over a finite sequence of operator input lines, starting
from the empty conversation history. -/
def runChat (respond : Nat → List String) (lines : List String) : List Msg × Nat :=
  lines.foldl (chatStep respond) ([], 0)

def flipRole : Role → Role
  | .user => .assistant
  | .assistant => .user

/-- `altRoles r h` holds when the roles of `h` are `r`, `flipRole r`,
`r`, ... strictly alternating. -/
def altRoles : Role → List Msg → Bool
  | _, [] => true
  | r, m :: rest => decide (m.role = r) && altRoles (flipRole r) rest

/-- Strict user/assistant alternation starting with a user message. -/
def alternating (h : List Msg) : Bool :=
  altRoles Role.user h

/-- Counts the operator lines that actually start a turn. -/
def nonBlank (s : String) : Bool :=
  !(s.trim == "")

/-! ## Specification side definitions, used only to compare the
specification wording with the code -/

/-- Modelled from the spec: a script path is lexically confined to
`<skillsRoot>/<skill>/<subpath...>` when, after normalizing separators, it
extends the skills root at a separator boundary, none of its segments
below the root is the upward traversal segment `..`, and it is nested at
least two levels below the root. -/
def lexicallyConfined (root p : List Char) : Bool :=
  let n := normalizeSeps p
  strStartsWith (root ++ ['/']) n &&
    (let segs := jsSplit '/' (n.drop (root.length + 1))
     decide (2 ≤ segs.length) && segs.all (fun s => !(decide (s = upDots))))

def envFileName : List Char := ".env".toList

/-- Modelled from the spec: a path references the environment secret file
when one of its slash separated segments, after normalizing separators, is
the env file name `.env`. -/
def referencesEnvSecret (p : List Char) : Bool :=
  (jsSplit '/' (normalizeSeps p)).any (fun seg => decide (seg = envFileName))

/-! ## Concrete inputs used by counterexamples and witnesses -/

def demoRoot : List Char := "/app/skills".toList

def traversalPath : List Char := "/app/skills/a/..".toList

def goodScriptPath : List Char := "/app/skills/demo/scripts/run.sh".toList

def outsidePath : List Char := "/etc/passwd".toList

def envPath : List Char := ".env".toList

def gitConfigPath : List Char := "/repo/.git/config".toList

def notesPath : List Char := "notes.txt".toList

def okTarget : ScriptTarget := ⟨true, true, 5, 0, "out", ""⟩

def okEnv : ExecEnv := ⟨okTarget, none⟩

def notFoundEnv : ExecEnv := ⟨⟨false, false, 0, 0, "", ""⟩, none⟩

def notExecEnv : ExecEnv := ⟨⟨true, false, 0, 0, "", ""⟩, none⟩

def failEnv : ExecEnv := ⟨⟨true, true, 5, 3, "", "boom"⟩, none⟩

def slowEnv : ExecEnv := ⟨⟨true, true, 20000, 0, "", "timed"⟩, none⟩

def faultEnv : ExecEnv := ⟨okTarget, some ("EIO: i/o error")⟩

def faultyRead : ReadEnv := ⟨⟨true, 3, "x"⟩, some ("EPERM")⟩

def secretEnvFs : ReadEnv := ⟨⟨true, 12, "API_KEY=abc"⟩, none⟩

def bigFile : ReadEnv := ⟨⟨true, 1000001, "big"⟩, none⟩

def smallFile : ReadEnv := ⟨⟨true, 1000000, "small contents"⟩, none⟩

/-! ## Helper lemmas -/

lemma head_toList_take {α : Type} (l : List α) : l.head?.toList = l.take 1 := by
  cases l <;> rfl

lemma prepareStep_pos {α : Type} (l : List α) (h : 8 < l.length) :
    prepareStep l = l.take 1 ++ l.drop (l.length - 8) := by
  unfold prepareStep
  rw [if_pos h, head_toList_take]

lemma prepareStep_neg {α : Type} (l : List α) (h : l.length ≤ 8) :
    prepareStep l = l := by
  unfold prepareStep
  rw [if_neg (by omega)]

lemma prepareStep_nine {α : Type} (l : List α) (h : l.length = 9) :
    prepareStep l = l := by
  rw [prepareStep_pos l (by omega), h]
  simpa using List.take_append_drop 1 l

lemma take_one_cons_sublist {α : Type} (l t : List α) (h : t <:+ l.tail) :
    (l.take 1 ++ t).Sublist l := by
  cases l with
  | nil =>
    have ht : t = [] := List.suffix_nil.mp h
    simp [ht]
  | cons a l' =>
    obtain ⟨s, hs⟩ := h
    simp only [List.tail_cons] at hs
    have hsub : t.Sublist l' := by
      rw [← hs]
      exact List.sublist_append_right s t
    simpa using hsub.cons₂ a

lemma flipRole_flipRole (r : Role) : flipRole (flipRole r) = r := by
  cases r <;> rfl

lemma altRoles_append_pair (u a : String) :
    ∀ (h : List Msg) (r : Role), altRoles r h = true →
      (if h.length % 2 = 0 then r else flipRole r) = Role.user →
      altRoles r (h ++ [⟨Role.user, u⟩, ⟨Role.assistant, a⟩]) = true := by
  intro h
  induction h with
  | nil =>
    intro r _ hr
    simp only [List.length_nil] at hr
    norm_num at hr
    subst hr
    simp [altRoles, flipRole]
  | cons m h' ih =>
    intro r halt hr
    rw [List.cons_append]
    simp only [altRoles, Bool.and_eq_true] at halt ⊢
    refine ⟨halt.1, ?_⟩
    apply ih (flipRole r) halt.2
    by_cases hp : h'.length % 2 = 0
    · rw [if_pos hp]
      have hlen : ¬ ((m :: h').length % 2 = 0) := by
        simp only [List.length_cons]
        omega
      rw [if_neg hlen] at hr
      exact hr
    · rw [if_neg hp, flipRole_flipRole]
      have hlen : (m :: h').length % 2 = 0 := by
        simp only [List.length_cons]
        omega
      rw [if_pos hlen] at hr
      exact hr

lemma runChat_loop_inv (respond : Nat → List String) :
    ∀ (lines : List String) (h : List Msg) (n : Nat),
      altRoles Role.user h = true → h.length = 2 * n →
      altRoles Role.user (lines.foldl (chatStep respond) (h, n)).1 = true ∧
      (lines.foldl (chatStep respond) (h, n)).1.length =
        2 * (n + lines.countP nonBlank) := by
  intro lines
  induction lines with
  | nil =>
    intro h n h1 h2
    refine ⟨by simpa using h1, ?_⟩
    simpa using h2
  | cons line rest ih =>
    intro h n h1 h2
    rw [List.foldl_cons]
    by_cases hb : line.trim = ""
    · have hstep : chatStep respond (h, n) line = (h, n) := by
        simp [chatStep, hb]
      rw [hstep]
      have hrec := ih h n h1 h2
      refine ⟨hrec.1, ?_⟩
      rw [hrec.2]
      have hcnt : (line :: rest).countP nonBlank = rest.countP nonBlank := by
        simp [List.countP_cons, nonBlank, hb]
      rw [hcnt]
    · have hstep : chatStep respond (h, n) line =
          (streamAgentResponse h line (respond n), n + 1) := by
        simp [chatStep, hb]
      rw [hstep]
      have halt : altRoles Role.user (streamAgentResponse h line (respond n)) = true := by
        unfold streamAgentResponse
        rw [List.append_assoc]
        refine altRoles_append_pair line (String.join (respond n)) h Role.user h1 ?_
        rw [h2]
        simp
      have hlen : (streamAgentResponse h line (respond n)).length = 2 * (n + 1) := by
        unfold streamAgentResponse
        simp only [List.length_append, List.length_cons, List.length_nil]
        omega
      have hrec := ih _ _ halt hlen
      refine ⟨hrec.1, ?_⟩
      rw [hrec.2]
      have hcnt : (line :: rest).countP nonBlank = rest.countP nonBlank + 1 := by
        simp [List.countP_cons, nonBlank, hb]
      rw [hcnt]
      ring

/-! ## Claim theorems -/

/-- C3: the Context Window Manager, given a candidate message list longer
than 8, returns the first message concatenated with the most recent 8
messages (the undefined slot filter is the `Option.toList` on the head);
given a list of length 8 or fewer it returns it unchanged; for a history of
length 9 the output is the anchor followed by positions 2..9 in original
order with length 9; and applying it twice to a list of length at most 9
equals applying it once. -/
theorem prepareStep_window {α : Type} (l : List α) :
    (8 < l.length → prepareStep l = l.take 1 ++ l.drop (l.length - 8)) ∧
    (l.length ≤ 8 → prepareStep l = l) ∧
    (l.length = 9 →
      prepareStep l = l.take 1 ++ l.tail ∧ (prepareStep l).length = 9) ∧
    (l.length ≤ 9 → prepareStep (prepareStep l) = prepareStep l) := by
  refine ⟨prepareStep_pos l, prepareStep_neg l, ?_, ?_⟩
  · intro h9
    constructor
    · rw [prepareStep_pos l (by omega), h9]
      norm_num
    · rw [prepareStep_nine l h9, h9]
  · intro h9
    by_cases h8 : 8 < l.length
    · have h9' : l.length = 9 := by omega
      rw [prepareStep_nine l h9', prepareStep_nine l h9']
    · rw [prepareStep_neg l (by omega), prepareStep_neg l (by omega)]

/-- C3 witness: the window theorem applied at a concrete list of length 9
(the anchor plus positions 2..9 survive and the result is a fixed point)
and at a concrete list of length 3 (identity). -/
theorem prepareStep_window_witness :
    prepareStep ([0, 1, 2, 3, 4, 5, 6, 7, 8] : List Nat) =
      ([0, 1, 2, 3, 4, 5, 6, 7, 8] : List Nat).take 1 ++
        ([0, 1, 2, 3, 4, 5, 6, 7, 8] : List Nat).tail ∧
    prepareStep ([0, 1, 2] : List Nat) = [0, 1, 2] ∧
    prepareStep (prepareStep ([0, 1, 2, 3, 4, 5, 6, 7, 8] : List Nat)) =
      prepareStep ([0, 1, 2, 3, 4, 5, 6, 7, 8] : List Nat) :=
  ⟨((prepareStep_window _).2.2.1 (by decide)).1,
   (prepareStep_window _).2.1 (by decide),
   (prepareStep_window _).2.2.2 (by decide)⟩

/-- C10: for every input list the Context Window Manager output is an
order preserving selection of the input: it is a sublist (no slot
duplicated or reordered), it decomposes as the anchor slot (`take 1`,
present exactly once, at the front) followed by a suffix of the strictly
later slots, and its length never exceeds 9. -/
theorem prepareStep_subsequence {α : Type} (l : List α) :
    ∃ t, t <:+ l.tail ∧ prepareStep l = l.take 1 ++ t ∧
      (prepareStep l).Sublist l ∧ (prepareStep l).length ≤ 9 := by
  by_cases h8 : 8 < l.length
  · refine ⟨l.drop (l.length - 8), ?_, prepareStep_pos l h8, ?_, ?_⟩
    · have hdr : l.tail.drop (l.length - 9) = l.drop (l.length - 8) := by
        rw [← List.drop_one, List.drop_drop]
        congr 1
        omega
      rw [← hdr]
      exact List.drop_suffix _ _
    · rw [prepareStep_pos l h8]
      apply take_one_cons_sublist
      have hdr : l.tail.drop (l.length - 9) = l.drop (l.length - 8) := by
        rw [← List.drop_one, List.drop_drop]
        congr 1
        omega
      rw [← hdr]
      exact List.drop_suffix _ _
    · rw [prepareStep_pos l h8]
      simp only [List.length_append, List.length_take, List.length_drop]
      omega
  · refine ⟨l.tail, List.suffix_rfl, ?_, ?_, ?_⟩
    · rw [prepareStep_neg l (by omega)]
      conv_lhs => rw [← List.take_append_drop 1 l]
      rw [List.drop_one]
    · rw [prepareStep_neg l (by omega)]
    · rw [prepareStep_neg l (by omega)]
      omega

/-- C8: for every sequence of operator input lines and every model
behaviour, the conversation state built by the chat loop strictly
alternates roles starting with a user message (so no two consecutive user
messages and no two consecutive assistant messages), and its length is
exactly twice the number of completed turns, a turn being started by each
line with non blank trim. -/
theorem conversation_alternation (respond : Nat → List String) (lines : List String) :
    alternating (runChat respond lines).1 = true ∧
    (runChat respond lines).1.length = 2 * lines.countP nonBlank := by
  have h := runChat_loop_inv respond lines [] 0 rfl rfl
  unfold runChat alternating
  simpa using h

/-- C9 counterexample: a turn whose token channel yields no text (for
example ten steps of tool calls with no streamed text) still appends an
assistant message, but its content is the empty string, refuting the
claimed non-emptiness of the appended assistant message. -/
theorem stream_nonempty_counterexample :
    (streamAgentResponse [] "hi" []).getLast? = some ⟨Role.assistant, ""⟩ ∧
    ¬ (∀ (h : List Msg) (p : String) (parts : List String) (m : Msg),
        (streamAgentResponse h p parts).getLast? = some m → m.content ≠ "") := by
  constructor
  · rfl
  · intro hcl
    exact hcl [] "hi" [] ⟨Role.assistant, ""⟩ rfl rfl

/-- C9 amended: a turn always completes by appending exactly one user
message and then one assistant message whose content is the accumulated
(possibly empty) streamed text, after which the loop is back at the
awaiting-input state with the extended history. -/
theorem stream_turn_append (h : List Msg) (prompt : String) (parts : List String) :
    streamAgentResponse h prompt parts =
      h ++ [⟨Role.user, prompt⟩, ⟨Role.assistant, String.join parts⟩] ∧
    (streamAgentResponse h prompt parts).length = h.length + 2 ∧
    (streamAgentResponse h prompt parts).getLast? =
      some ⟨Role.assistant, String.join parts⟩ := by
  refine ⟨?_, ?_, ?_⟩
  · unfold streamAgentResponse
    rw [List.append_assoc]
    rfl
  · unfold streamAgentResponse
    simp only [List.length_append, List.length_cons, List.length_nil]
  · unfold streamAgentResponse
    exact List.getLast?_concat _

/-- C4: on a validated path, when the file exists and no filesystem
exception is raised, a byte size above 1000000 yields the too-large
message and a size of at most 1000000 yields the full content; in
particular exactly 1000001 bytes is too large and exactly 1000000 bytes is
returned. -/
theorem readFile_size_limit (env : ReadEnv) (p : List Char)
    (hv : readFilePathValid p = true) (hf : env.fault = none)
    (hp : env.file.present = true) :
    (1000000 < env.file.size →
      readFileCall env p = .executed ("File too large to read")) ∧
    (env.file.size ≤ 1000000 →
      readFileCall env p = .executed env.file.content) ∧
    (env.file.size = 1000001 →
      readFileCall env p = .executed ("File too large to read")) ∧
    (env.file.size = 1000000 →
      readFileCall env p = .executed env.file.content) := by
  have hcall : readFileCall env p = .executed (readFileExecute env) := by
    unfold readFileCall
    rw [if_pos hv]
  have htry : readFileTry env =
      (if env.file.present = false then .ok ("File not found")
       else if 1000000 < env.file.size then .ok ("File too large to read")
       else .ok env.file.content) := by
    unfold readFileTry
    rw [hf]
  have hbig : ∀ _ : 1000000 < env.file.size,
      readFileCall env p = .executed ("File too large to read") := by
    intro hs
    rw [hcall]
    unfold readFileExecute
    rw [htry, if_neg (by simp [hp]), if_pos hs]
  have hsmall : ∀ _ : env.file.size ≤ 1000000,
      readFileCall env p = .executed env.file.content := by
    intro hs
    rw [hcall]
    unfold readFileExecute
    rw [htry, if_neg (by simp [hp]), if_neg (by omega)]
  exact ⟨hbig, hsmall, fun h => hbig (by omega), fun h => hsmall (by omega)⟩

/-- C4 witness: a 1000001 byte file yields the too-large message and a
1000000 byte file yields its content. -/
theorem readFile_size_limit_witness :
    readFileCall bigFile notesPath = .executed ("File too large to read") ∧
    readFileCall smallFile notesPath = .executed ("small contents") := by
  constructor
  · exact (readFile_size_limit bigFile notesPath (by decide) rfl rfl).2.2.1 rfl
  · exact ((readFile_size_limit smallFile notesPath (by decide) rfl rfl).2.2.2 rfl).trans
      (by decide)

/-- C5: for every runScript invocation passing input validation, a missing
target returns the string `Script not found` and a non-executable target
returns `Script is not executable`, both without spawning a process and
without raising; a spawned script finishing in time with non zero exit
status returns the formatted failure string carrying the exit code and the
captured stderr; and with zero exit status the return value is the script
standard output verbatim. -/
theorem runScript_outcomes (root : List Char) (env : ExecEnv) (p : List Char)
    (hv : runScriptPathValid root p = true) :
    (env.target.present = false →
      runScriptCall root env p = .ran ⟨"Script not found", false, false⟩) ∧
    (env.target.present = true → env.target.executable = false →
      runScriptCall root env p = .ran ⟨"Script is not executable", false, false⟩) ∧
    (env.target.present = true → env.target.executable = true →
      env.spawnFault = none → env.target.runMillis ≤ 10000 →
      env.target.exitCode ≠ 0 →
      runScriptCall root env p = .ran
        ⟨"Script failed with exit code " ++ toString env.target.exitCode ++ ": " ++
          env.target.stderr, true, false⟩) ∧
    (env.target.present = true → env.target.executable = true →
      env.spawnFault = none → env.target.runMillis ≤ 10000 →
      env.target.exitCode = 0 →
      runScriptCall root env p = .ran ⟨env.target.stdout, true, false⟩) := by
  have hcall : runScriptCall root env p = .ran (runScriptExecute env) := by
    unfold runScriptCall
    rw [if_pos hv]
  refine ⟨?_, ?_, ?_, ?_⟩
  · intro h1
    have htry : runScriptTry env = .ok ⟨"Script not found", false, false⟩ := by
      unfold runScriptTry
      rw [if_pos h1]
    rw [hcall]
    unfold runScriptExecute
    rw [htry]
  · intro h1 h2
    have htry : runScriptTry env = .ok ⟨"Script is not executable", false, false⟩ := by
      unfold runScriptTry
      rw [if_neg (by simp [h1]), if_pos h2]
    rw [hcall]
    unfold runScriptExecute
    rw [htry]
  · intro h1 h2 h3 h4 h5
    have hsp : spawnWithTimeout env.target 10000 =
        ⟨some env.target.exitCode, env.target.stdout, env.target.stderr, false, false⟩ := by
      unfold spawnWithTimeout
      rw [if_neg (by omega)]
    have htry : runScriptTry env = runSpawn (spawnWithTimeout env.target 10000) := by
      unfold runScriptTry
      rw [if_neg (by simp [h1]), if_neg (by simp [h2]), h3]
    have hrun : runSpawn (spawnWithTimeout env.target 10000) =
        .ok ⟨"Script failed with exit code " ++ toString env.target.exitCode ++ ": " ++
          env.target.stderr, true, false⟩ := by
      rw [hsp]
      unfold runSpawn
      rw [if_pos (by simpa using h5)]
      rfl
    rw [hcall]
    unfold runScriptExecute
    rw [htry.trans hrun]
  · intro h1 h2 h3 h4 h5
    have hsp : spawnWithTimeout env.target 10000 =
        ⟨some env.target.exitCode, env.target.stdout, env.target.stderr, false, false⟩ := by
      unfold spawnWithTimeout
      rw [if_neg (by omega)]
    have htry : runScriptTry env = runSpawn (spawnWithTimeout env.target 10000) := by
      unfold runScriptTry
      rw [if_neg (by simp [h1]), if_neg (by simp [h2]), h3]
    have hrun : runSpawn (spawnWithTimeout env.target 10000) =
        .ok ⟨env.target.stdout, true, false⟩ := by
      rw [hsp]
      unfold runSpawn
      rw [if_neg (by simp [h5])]
    rw [hcall]
    unfold runScriptExecute
    rw [htry.trans hrun]

/-- C5 witness: the four outcomes at concrete environments over a
validated script path. -/
theorem runScript_outcomes_witness :
    runScriptCall demoRoot notFoundEnv goodScriptPath =
      .ran ⟨"Script not found", false, false⟩ ∧
    runScriptCall demoRoot notExecEnv goodScriptPath =
      .ran ⟨"Script is not executable", false, false⟩ ∧
    runScriptCall demoRoot failEnv goodScriptPath =
      .ran ⟨"Script failed with exit code 3: boom", true, false⟩ ∧
    runScriptCall demoRoot okEnv goodScriptPath = .ran ⟨"out", true, false⟩ := by
  refine ⟨?_, ?_, ?_, ?_⟩
  · exact (runScript_outcomes demoRoot notFoundEnv goodScriptPath (by decide)).1 rfl
  · exact (runScript_outcomes demoRoot notExecEnv goodScriptPath (by decide)).2.1 rfl rfl
  · exact ((runScript_outcomes demoRoot failEnv goodScriptPath (by decide)).2.2.1
      rfl rfl rfl (by decide) (by decide)).trans (by decide)
  · exact (runScript_outcomes demoRoot okEnv goodScriptPath (by decide)).2.2.2
      rfl rfl rfl (by decide) rfl

/-- C6: a spawned child whose wall clock runtime exceeds the 10 second
timeout is killed by the runtime and not left running, and the tool call
still resolves, returning the failure string built from the null exit code
and the captured stderr instead of leaving the turn unresolved. -/
theorem runScript_timeout (env : ExecEnv)
    (h1 : env.target.present = true) (h2 : env.target.executable = true)
    (h3 : env.spawnFault = none) (h4 : 10000 < env.target.runMillis) :
    (spawnWithTimeout env.target 10000).killedByTimeout = true ∧
    (spawnWithTimeout env.target 10000).leftRunning = false ∧
    runScriptExecute env =
      ⟨"Script failed with exit code null: " ++ env.target.stderr, true, true⟩ := by
  have hsp : spawnWithTimeout env.target 10000 =
      ⟨none, env.target.stdout, env.target.stderr, true, false⟩ := by
    unfold spawnWithTimeout
    rw [if_pos h4]
  have htry : runScriptTry env = runSpawn (spawnWithTimeout env.target 10000) := by
    unfold runScriptTry
    rw [if_neg (by simp [h1]), if_neg (by simp [h2]), h3]
  have hrun : runSpawn (spawnWithTimeout env.target 10000) =
      .ok ⟨"Script failed with exit code null: " ++ env.target.stderr, true, true⟩ := by
    rw [hsp]
    unfold runSpawn
    rw [if_pos (by simp)]
    rfl
  refine ⟨by rw [hsp], by rw [hsp], ?_⟩
  unfold runScriptExecute
  rw [htry.trans hrun]

/-- C6 witness: a 20 second script is killed by the timeout, is not left
running, and the call resolves to the failure string. -/
theorem runScript_timeout_witness :
    (spawnWithTimeout slowEnv.target 10000).killedByTimeout = true ∧
    (spawnWithTimeout slowEnv.target 10000).leftRunning = false ∧
    runScriptExecute slowEnv =
      ⟨"Script failed with exit code null: timed", true, true⟩ := by
  have h := runScript_timeout slowEnv rfl rfl rfl (by decide)
  exact ⟨h.1, h.2.1, h.2.2.trans (by decide)⟩

/-- C7 counterexample: an unexpected system fault raised inside the
runScript try block (an i/o error at spawn time, on a present and
executable target) does NOT propagate to the caller: the catch converts it
to the returned result string, refuting the claim that for every tool such
faults propagate as raised faults.  The first conjunct shows a fault was
raised inside the tool; the second shows the tool boundary returns a plain
result instead of re-raising it. -/
theorem fault_policy_counterexample :
    runScriptTry faultEnv = .error ("EIO: i/o error") ∧
    runScriptExecute faultEnv =
      ⟨"Error executing script: EIO: i/o error", false, false⟩ := by
  constructor
  · rfl
  · rfl

/-- C7 amended: expected absence is converted to a descriptive result
string everywhere (a missing directory yields the literal
`Directory not found`), and listDirectory alone re-raises every other
failure to the caller, while runScript and readFile catch every failure
raised during execution, unexpected system faults included, and return it
as a descriptive result string. -/
theorem fault_policy :
    (listDirectoryExecute .enoent = .ok ("Directory not found")) ∧
    (∀ msg, listDirectoryExecute (.fault msg) = .error msg) ∧
    (∀ env msg, runScriptTry env = .error msg →
      runScriptExecute env = ⟨"Error executing script: " ++ msg, false, false⟩) ∧
    (∀ env msg, readFileTry env = .error msg →
      readFileExecute env = "Error reading file: " ++ msg) := by
  refine ⟨rfl, fun msg => rfl, ?_, ?_⟩
  · intro env msg h
    unfold runScriptExecute
    rw [h]
  · intro env msg h
    unfold readFileExecute
    rw [h]

/-- C7 witness: the amended fault policy at concrete environments, with
the hypotheses discharged by evaluation. -/
theorem fault_policy_witness :
    listDirectoryExecute (.fault ("EACCES")) = .error ("EACCES") ∧
    runScriptExecute faultEnv =
      ⟨"Error executing script: " ++ "EIO: i/o error", false, false⟩ ∧
    readFileExecute faultyRead = "Error reading file: " ++ "EPERM" := by
  refine ⟨fault_policy.2.1 ("EACCES"), ?_, ?_⟩
  · exact fault_policy.2.2.1 faultEnv ("EIO: i/o error") rfl
  · exact fault_policy.2.2.2 faultyRead ("EPERM") rfl

/-- C1 counterexample: the path `/app/skills/a/..` contains an upward
traversal segment and is not lexically confined to
`<skillsRoot>/<skill>/<subpath...>` (it resolves to the skills root
itself), yet the input schema accepts it — the substring test only catches
`../` with a trailing separator — and a child process is then spawned for
it, refuting the claimed rejection before any process is spawned. -/
theorem runScript_confinement_counterexample :
    lexicallyConfined demoRoot traversalPath = false ∧
    runScriptPathValid demoRoot traversalPath = true ∧
    runScriptCall demoRoot okEnv traversalPath = .ran ⟨"out", true, false⟩ := by
  refine ⟨by decide, by decide, by decide⟩

/-- C1 amended: the input schema rejects, before any child process is
spawned and independently of the filesystem state, every path whose
separator-normalized form contains the substring `../`, every path that
does not extend the skills root string, and every path with fewer than
three slash separated segments in total; a trailing `..` segment without a
separator after it, or a sibling directory sharing the skills root as a
string prefix, is not rejected. -/
theorem runScript_validation_rejects (root : List Char) (env : ExecEnv) (p : List Char)
    (h : containsSub (normalizeSeps p) upSeg = true ∨
      strStartsWith root (normalizeSeps p) = false ∨
      (jsSplit '/' (normalizeSeps p)).length < 3) :
    runScriptCall root env p =
      .rejected ("Script path must be within the skills directory") := by
  have hv : runScriptPathValid root p = false := by
    rcases h with h | h | h
    · simp [runScriptPathValid, h]
    · simp [runScriptPathValid, h]
    · have hd : decide (3 ≤ (jsSplit '/' (normalizeSeps p)).length) = false :=
        decide_eq_false (by omega)
      simp [runScriptPathValid, hd]
  simp [runScriptCall, hv]

/-- C1 witness: a path outside the skills root is rejected without
reaching the execution environment. -/
theorem runScript_validation_rejects_witness :
    runScriptCall demoRoot okEnv outsidePath =
      .rejected ("Script path must be within the skills directory") :=
  runScript_validation_rejects demoRoot okEnv outsidePath (Or.inr (Or.inl (by decide)))

/-- C2 counterexample: the bare path `.env` references the environment
secret file (its only segment is `.env`), yet the denylist accepts it —
the substring test only catches `/.env` with a leading separator — and the
tool then reads the filesystem and returns the secret content, refuting
the claimed rejection without filesystem access. -/
theorem readFile_denylist_counterexample :
    referencesEnvSecret envPath = true ∧
    readFilePathValid envPath = true ∧
    readFileCall secretEnvFs envPath = .executed ("API_KEY=abc") := by
  refine ⟨by decide, by decide, by decide⟩

/-- C2 amended: the input schema rejects, before any filesystem access and
independently of the filesystem state, every path whose separator
normalized form contains `/.env`, contains `/.git/`, contains
`node_modules/`, or ends case insensitively in one of
png/jpg/jpeg/gif/bmp/webp/avif/pdf; a path naming the env file with no
separator before it (such as the bare `.env`) is not rejected. -/
theorem readFile_denylist_rejects (env : ReadEnv) (p : List Char)
    (h : containsSub (normalizeSeps p) envNeedle = true ∨
      containsSub (normalizeSeps p) gitNeedle = true ∨
      containsSub (normalizeSeps p) nodeModulesNeedle = true ∨
      hasBinaryExt (normalizeSeps p) = true) :
    readFileCall env p = .rejected ("Cannot read that file path") := by
  have hv : readFilePathValid p = false := by
    rcases h with h | h | h | h <;> simp [readFilePathValid, h]
  simp [readFileCall, hv]

/-- C2 witness: a version control internal path is rejected whatever the
filesystem holds. -/
theorem readFile_denylist_rejects_witness :
    readFileCall smallFile gitConfigPath = .rejected ("Cannot read that file path") :=
  readFile_denylist_rejects smallFile gitConfigPath (Or.inr (Or.inl (by decide)))
